import Mathlib

/-!
# Verification of the video-sync pipeline (`pyvideosync/main.py`)

A shallow embedding of the orchestration logic of `main.py`:
the overlap scan over camera recording descriptors (step 4 of `main`),
the per-descriptor correlation join (the body of the inner loop),
the per-identity collection and segment assembly (the outer loop),
and the timestamp cache / sort plumbing around them.

External collaborators that are not part of this repository's core file
(`Videojson`, `Nev`, `Nsx`, `utils`, `process`) are embedded at their
interface, following the specification of their contracts; pandas
operations (`merge`, boolean filtering, `.iloc`, `.unique()`) are
embedded with their documented semantics, in particular `.iloc[0]` on an
empty frame raising `IndexError`.
-/

/-- One recording descriptor as seen by the overlap scan: its group
timestamp key and, when a JSON sidecar with chunk serials is resolvable,
the min/max chunk serial range of the sidecar.  `none` covers both the
"no JSON file found in group" and the "no chunk serials found" branches
of `main`, which behave identically (log and `continue`). -/
structure Descriptor where
  ts : Nat
  serialRange : Option (Nat × Nat)
deriving DecidableEq, Repr

/-- The overlap scan of `main` (step 4, lines 78-100): for each
descriptor in order, skip when the sidecar is unresolvable, skip with a
"No overlap found" log when `end_serial < nev_start_serial`, include the
timestamp when `start_serial <= nev_end_serial`, and otherwise `break`
out of the loop. -/
def overlapScan (nevStartSerial nevEndSerial : Nat) : List Descriptor → List Nat
  | [] => []
  | d :: rest =>
    match d.serialRange with
    | none => overlapScan nevStartSerial nevEndSerial rest
    | some (startSerial, endSerial) =>
      if endSerial < nevStartSerial then
        overlapScan nevStartSerial nevEndSerial rest
      else if startSerial ≤ nevEndSerial then
        d.ts :: overlapScan nevStartSerial nevEndSerial rest
      else
        []

/-- A descriptor terminates the scan: its sidecar is resolvable, it is
not skipped by the no-overlap branch (`max_serial >= start_serial`), and
its `min_serial` exceeds the reference `end_serial`. -/
def isTerminator (nevStartSerial nevEndSerial : Nat) (d : Descriptor) : Bool :=
  match d.serialRange with
  | none => false
  | some (startSerial, endSerial) =>
    decide (nevStartSerial ≤ endSerial) && decide (nevEndSerial < startSerial)

/-- A descriptor overlaps the reference serial range: its sidecar is
resolvable, `max_serial >= start_serial` and `min_serial <= end_serial`. -/
def overlapsRef (nevStartSerial nevEndSerial : Nat) (d : Descriptor) : Bool :=
  match d.serialRange with
  | none => false
  | some (startSerial, endSerial) =>
    decide (nevStartSerial ≤ endSerial) && decide (startSerial ≤ nevEndSerial)

/-- Declarative characterisation of the selection: among the descriptors
strictly before the first terminator, keep exactly those overlapping the
reference range (dropping the unresolvable and the `max_serial <
start_serial` ones), in order. -/
def selectSpec (nevStartSerial nevEndSerial : Nat) (ds : List Descriptor) : List Nat :=
  ((ds.takeWhile fun d => !(isTerminator nevStartSerial nevEndSerial d)).filter
    (overlapsRef nevStartSerial nevEndSerial)).map Descriptor.ts

/-- One row of the per-camera table extracted from a sidecar by
`Videojson.get_camera_df` (columns used by `main`). -/
structure CamRow where
  chunk_serial_data : Nat
  frame_id : Nat
  frame_ids_reconstructed : Int
deriving DecidableEq, Repr

/-- A camera row extended with the `frame_ids_relative` column computed
by `main` (lines 124-128). -/
structure CamRowRel extends CamRow where
  frame_ids_relative : Int
deriving DecidableEq, Repr

/-- One row of the NEV chunk-serial table (`nev.get_chunk_serial_df()`),
with its `chunk_serial` and `TimeStamps` columns. -/
structure NevRow where
  chunk_serial : Nat
  TimeStamps : Nat
deriving DecidableEq, Repr

/-- One NS5 sample as returned by the Signal Slicer
(`ns5.get_filtered_channel_df`), with `TimeStamp` and `Amplitude`. -/
structure Sample where
  TimeStamp : Nat
  Amplitude : Int
deriving DecidableEq, Repr

/-- The vectorised column assignment of `main` lines 124-128:
`frame_ids_relative = frame_ids_reconstructed - frame_ids_reconstructed.iloc[0] + 1`,
given the first row `r0` of the (necessarily non-empty) frame. -/
def relativize (r0 : CamRow) (rows : List CamRow) : List CamRowRel :=
  rows.map fun r =>
    { toCamRow := r
      frame_ids_relative := r.frame_ids_reconstructed - r0.frame_ids_reconstructed + 1 }

/-- The boolean-mask filter of `main` lines 130-133: keep rows whose
`chunk_serial_data` lies in `[nev_start_serial, nev_end_serial]`. -/
def filterSerialRange (nevStartSerial nevEndSerial : Nat) (rows : List CamRowRel) :
    List CamRowRel :=
  rows.filter fun r =>
    decide (nevStartSerial ≤ r.chunk_serial_data) &&
      decide (r.chunk_serial_data ≤ nevEndSerial)

/-- One row of `chunk_serial_joined` (the inner merge of the NEV table
with the filtered camera table, `main` lines 135-140). -/
structure JoinedRow where
  TimeStamps : Nat
  chunk_serial : Nat
  frame_id : Nat
  frame_ids_reconstructed : Int
  frame_ids_relative : Int
deriving DecidableEq, Repr

/-- `nev_chunk_serial_df.merge(camera_df, left_on="chunk_serial",
right_on="chunk_serial_data", how="inner")`: one output row per pair of
a left row and a right row with equal serial keys, left rows in order,
each fanned out over its matching right rows in order. -/
def chunkSerialJoined (nev : List NevRow) (cam : List CamRowRel) : List JoinedRow :=
  nev.flatMap fun n =>
    (cam.filter fun c => c.chunk_serial_data = n.chunk_serial).map fun c =>
      { TimeStamps := n.TimeStamps
        chunk_serial := n.chunk_serial
        frame_id := c.frame_id
        frame_ids_reconstructed := c.frame_ids_reconstructed
        frame_ids_relative := c.frame_ids_relative }

/-- Modelled from the spec: `Nsx.get_filtered_channel_df` (the Signal
Slicer, not part of this repository's core file) returns the samples of
the configured channel whose timestamps lie in the inclusive range
`[tsStart, tsEnd]`, in order; an inverted range yields an empty result.
`signal` is the channel's full sample table. -/
def sliceSignal (signal : List Sample) (tsStart tsEnd : Nat) : List Sample :=
  signal.filter fun s => decide (tsStart ≤ s.TimeStamp) && decide (s.TimeStamp ≤ tsEnd)

/-- The serial/frame metadata columns a merged row carries when its
timestamp matched a `chunk_serial_joined` row; `none` models the NaN
fill of an unmatched left-merge row. -/
structure RowMeta where
  chunk_serial : Nat
  frame_id : Nat
  frame_ids_reconstructed : Int
  frame_ids_relative : Int
deriving DecidableEq, Repr

/-- One row of `all_merged` after the column selection of `main`
lines 157-166. -/
structure MergedRow where
  TimeStamp : Nat
  Amplitude : Int
  meta : Option RowMeta
deriving DecidableEq, Repr

/-- `ns5_slice.merge(chunk_serial_joined, left_on="TimeStamp",
right_on="TimeStamps", how="left")` (`main` lines 150-155): every left
sample is kept; a sample with matching right rows fans out into one row
per match, a sample with no match keeps null (NaN) metadata columns. -/
def leftMerge (samples : List Sample) (joined : List JoinedRow) : List MergedRow :=
  samples.flatMap fun s =>
    let ms := joined.filter fun j => j.TimeStamps = s.TimeStamp
    if ms.isEmpty then
      [{ TimeStamp := s.TimeStamp, Amplitude := s.Amplitude, meta := none }]
    else
      ms.map fun j =>
        { TimeStamp := s.TimeStamp
          Amplitude := s.Amplitude
          meta := some
            { chunk_serial := j.chunk_serial
              frame_id := j.frame_id
              frame_ids_reconstructed := j.frame_ids_reconstructed
              frame_ids_relative := j.frame_ids_relative } }

/-- A merged row with the `mp4_file` column attached (`main` line 173). -/
structure OutRow where
  row : MergedRow
  mp4_file : String
deriving DecidableEq, Repr

/-- Outcome of one iteration of the inner descriptor loop of `main`:
`ok` appends merged rows to `all_merged_list`; `skip` is a logged
`continue`; `crash` is an uncaught Python exception that aborts the
whole run. -/
inductive StepResult (α : Type) where
  | ok : α → StepResult α
  | skip : String → StepResult α
  | crash : String → StepResult α
deriving DecidableEq, Repr

/-- The per-identity view of one selected descriptor group: its group
timestamp, the camera rows of the current identity when a JSON sidecar
resolves (`none` models `get_json_file` returning `None`), and the
identity's MP4 path when one resolves. -/
structure DescriptorData where
  ts : Nat
  json : Option (List CamRow)
  mp4 : Option String
deriving DecidableEq, Repr

/-- Run-wide read-only context: the NEV reference serial range, the NEV
chunk-serial table, and the configured channel's NS5 sample table. -/
structure RunCtx where
  nevStartSerial : Nat
  nevEndSerial : Nat
  nev : List NevRow
  signal : List Sample
deriving DecidableEq, Repr

/-- Last element of the non-empty list `a :: l` (pandas `.iloc[-1]`). -/
def lastD {α : Type} (a : α) : List α → α
  | [] => a
  | b :: l => lastD b l

/-- The body of the inner descriptor loop of `main` (lines 114-174) for
one descriptor and one camera identity: resolve the sidecar (else log
and `continue`), compute `frame_ids_relative` (IndexError on an empty
camera table, since `.iloc[0]` is taken), filter to the NEV serial
range, inner-join with the NEV table, read `.iloc[0]`/`.iloc[-1]`
timestamps of the join (IndexError on an empty join), slice the NS5
signal over that range, left-merge, resolve the MP4 path (else log and
`continue`), and attach it to every row. -/
def processDescriptor (ctx : RunCtx) (d : DescriptorData) : StepResult (List OutRow) :=
  match d.json with
  | none => .skip "No JSON file found in group"
  | some camRows =>
    match camRows with
    | [] => .crash "IndexError: single positional indexer is out-of-bounds"
    | r0 :: _ =>
      let camFiltered :=
        filterSerialRange ctx.nevStartSerial ctx.nevEndSerial (relativize r0 camRows)
      match chunkSerialJoined ctx.nev camFiltered with
      | [] => .crash "IndexError: single positional indexer is out-of-bounds"
      | j0 :: jrest =>
        let ns5Slice := sliceSignal ctx.signal j0.TimeStamps (lastD j0 jrest).TimeStamps
        let allMerged := leftMerge ns5Slice (j0 :: jrest)
        match d.mp4 with
        | none => .skip "No MP4 file found in group"
        | some mp4Path => .ok (allMerged.map fun m => { row := m, mp4_file := mp4Path })

/-- The inner loop of `main` over the sorted selected descriptors for
one camera identity (lines 114-174): `skip` outcomes `continue` with a
log line collected as a warning, `crash` outcomes abort the run
(uncaught exception), `ok` outcomes append their rows to
`all_merged_list`. -/
def collectMerged (ctx : RunCtx) : List DescriptorData →
    Except String (List String × List (List OutRow))
  | [] => .ok ([], [])
  | d :: rest =>
    match processDescriptor ctx d with
    | .crash e => .error e
    | .skip w =>
      match collectMerged ctx rest with
      | .error e => .error e
      | .ok (ws, ls) => .ok (w :: ws, ls)
    | .ok rows =>
      match collectMerged ctx rest with
      | .error e => .error e
      | .ok (ws, ls) => .ok (ws, rows :: ls)

/-- `pandas.Series.unique` on the `mp4_file` column: distinct values in
order of first appearance, with `seen` the accumulator of values already
emitted. -/
def uniqueAux (seen : List String) : List String → List String
  | [] => []
  | x :: xs => if x ∈ seen then uniqueAux seen xs else x :: uniqueAux (x :: seen) xs

/-- `all_merged_df["mp4_file"].unique()` (`main` line 194). -/
def uniqueFiles (rows : List OutRow) : List String :=
  uniqueAux [] (rows.map OutRow.mp4_file)

/-- First-appearance deduplication written as the specification phrases
it: walk the list left to right, appending each value not yet kept. Used
only to compare against `uniqueFiles`. -/
def specFirstAppearance (l : List String) : List String :=
  l.foldl (fun acc x => if x ∈ acc then acc else acc ++ [x]) []

/-- The external media calls of `pyvideosync.process`, at their
interface: produce a subclip file for a row group and source MP4, and
concatenate subclip files into a target; either call may fail. -/
structure MediaOps where
  makeSubclip : List OutRow → String → Except String String
  concatMp4s : List String → String → Except String Unit

/-- The subclip loop of `main` lines 193-204: for each distinct
`mp4_file` value in first-appearance order, build a subclip from the
rows of that file; an uncaught failure aborts the run. -/
def makeSubclips (ops : MediaOps) (rows : List OutRow) :
    List String → Except String (List String)
  | [] => .ok []
  | f :: fs =>
    match ops.makeSubclip (rows.filter fun r => r.mp4_file = f) f with
    | .error e => .error e
    | .ok p =>
      match makeSubclips ops rows fs with
      | .error e => .error e
      | .ok ps => .ok (p :: ps)

/-- The segment assembly of `main` lines 193-214: build the subclips,
then either take the single subclip as the final output directly, or
concatenate all subclips (in order) into `stitchedPath`. -/
def assembleIdentity (ops : MediaOps) (rows : List OutRow) (stitchedPath : String) :
    Except String String :=
  match makeSubclips ops rows (uniqueFiles rows) with
  | .error e => .error e
  | .ok subclipPaths =>
    match subclipPaths with
    | [p] => .ok p
    | ps =>
      match ops.concatMp4s ps stitchedPath with
      | .error e => .error e
      | .ok _ => .ok stitchedPath

/-- One camera identity as the outer loop of `main` sees it: its serial
string and its per-identity view of the sorted selected descriptors. -/
structure IdentityInput where
  serial : String
  descs : List DescriptorData

/-- The body of the outer loop of `main` (lines 111-216) for one camera
identity: collect merged rows over its descriptors; with no valid merged
data, record a warning and produce no output (`continue`); otherwise
assemble the final video. Returns the collected log lines and the final
output path, if any; `.error` is an uncaught exception. -/
def runIdentity (ctx : RunCtx) (ops : MediaOps) (ident : IdentityInput) :
    Except String (List String × Option String) :=
  match collectMerged ctx ident.descs with
  | .error e => .error e
  | .ok (ws, mergedList) =>
    if mergedList.isEmpty then
      .ok (ws ++ ["No valid merged data for " ++ ident.serial], none)
    else
      match assembleIdentity ops (mergedList.flatten)
          ("stitched_" ++ ident.serial ++ ".mp4") with
      | .error e => .error e
      | .ok finalPath => .ok (ws, some finalPath)

/-- The outer loop of `main` over camera serials: identities are
processed in order; an uncaught exception in one identity propagates and
aborts the whole run, so later identities are not reached. -/
def runAll (ctx : RunCtx) (ops : MediaOps) :
    List IdentityInput → Except String (List (String × List String × Option String))
  | [] => .ok []
  | i :: is =>
    match runIdentity ctx ops i with
    | .error e => .error e
    | .ok (ws, out) =>
      match runAll ctx ops is with
      | .error e => .error e
      | .ok rs => .ok ((i.serial, ws, out) :: rs)

/-- Modelled from the spec: `sort_timestamps` of `pyvideosync.utils`
(not part of this repository's core file) sorts the selected group
timestamps into ascending order (`main` line 104). -/
def sortTimestamps (l : List Nat) : List Nat :=
  l.insertionSort (· ≤ ·)

/-- The timestamp-cache branch of `main` (lines 71-104): when
`load_timestamps` returned a truthy (non-empty) list, it is used
verbatim and the overlap scan is never executed; a missing file (`none`)
or a falsy empty list falls back to the scan. -/
def selectTimestamps (cached : Option (List Nat)) (nevStartSerial nevEndSerial : Nat)
    (ds : List Descriptor) : List Nat :=
  match cached with
  | some ts => if ts.isEmpty then overlapScan nevStartSerial nevEndSerial ds else ts
  | none => overlapScan nevStartSerial nevEndSerial ds

/-- The per-identity pipeline as a function of the selected timestamp
list: sort it, look up each group's per-identity descriptor view, and
run the identity loop body (`main` lines 104-216 for one serial). -/
def identityPipeline (ctx : RunCtx) (ops : MediaOps) (camFiles : Nat → DescriptorData)
    (serial : String) (selected : List Nat) :
    Except String (List String × Option String) :=
  runIdentity ctx ops { serial := serial, descs := (sortTimestamps selected).map camFiles }

theorem overlapScan_eq_selectSpec (s e : Nat) (ds : List Descriptor) :
    overlapScan s e ds = selectSpec s e ds := by
  induction ds with
  | nil => rfl
  | cons d rest ih =>
    rcases hsr : d.serialRange with _ | ⟨ss, ee⟩
    · simpa [overlapScan, selectSpec, isTerminator, overlapsRef, hsr] using ih
    · by_cases h1 : ee < s
      · have hst : ¬ s ≤ ee := by omega
        simpa [overlapScan, selectSpec, isTerminator, overlapsRef, hsr, h1, hst] using ih
      · by_cases h2 : ss ≤ e
        · have hne : ¬ e < ss := by omega
          have hse : s ≤ ee := by omega
          simpa [overlapScan, selectSpec, isTerminator, overlapsRef, hsr, h1, h2, hne, hse]
            using ih
        · have hse : s ≤ ee := by omega
          have hlt : e < ss := by omega
          simp [overlapScan, selectSpec, isTerminator, overlapsRef, hsr, h1, h2, hse, hlt]

/-- C1: for every reference serial range and chronologically ordered
descriptor sequence, the overlap scan selects exactly the descriptors
that precede the first non-skipped descriptor whose `min_serial` exceeds
the reference `end_serial` (which terminates the scan early), minus
every descriptor whose `max_serial` is below the reference
`start_serial` (skipped with a warning, scan continuing). -/
theorem overlap_scan_selection_correct (s e : Nat) (ds : List Descriptor)
    (hchron : (ds.map Descriptor.ts).Sorted (· ≤ ·)) :
    overlapScan s e ds = selectSpec s e ds :=
  overlapScan_eq_selectSpec s e ds

/-- Witness for C1 on the specification's scenario: reference range
`[100, 200]`, descriptors `A = [50, 150]`, `B = [160, 250]`,
`C = [260, 300]`; the selection is `{A, B}` with `C` cut by early exit;
and a `max_serial = 90` descriptor is skipped while the scan continues. -/
theorem overlap_scan_selection_correct_witness :
    overlapScan 100 200
        [⟨1, some (50, 150)⟩, ⟨2, some (160, 250)⟩, ⟨3, some (260, 300)⟩] =
      selectSpec 100 200
        [⟨1, some (50, 150)⟩, ⟨2, some (160, 250)⟩, ⟨3, some (260, 300)⟩] ∧
    overlapScan 100 200
        [⟨1, some (50, 150)⟩, ⟨2, some (160, 250)⟩, ⟨3, some (260, 300)⟩] = [1, 2] ∧
    overlapScan 100 200 [⟨1, some (40, 90)⟩, ⟨2, some (160, 250)⟩] = [2] :=
  ⟨overlap_scan_selection_correct 100 200
      [⟨1, some (50, 150)⟩, ⟨2, some (160, 250)⟩, ⟨3, some (260, 300)⟩] (by decide),
    by decide, by decide⟩

/-- C2 counterexample: a selected descriptor whose row table for the
current camera identity is empty does not warn-and-continue; the
`.iloc[0]` of the relative-frame-index computation raises an uncaught
IndexError, aborting the run. -/
theorem empty_rows_counterexample :
    processDescriptor ⟨100, 200, [], []⟩ ⟨7, some [], some "video.mp4"⟩ =
      .crash "IndexError: single positional indexer is out-of-bounds" := rfl

/-- C2 (amended): for every run context and descriptor whose row table
for the current camera identity is empty, the per-descriptor processing
crashes with an uncaught IndexError (from `.iloc[0]` in the
relative-frame-index computation) instead of skipping with a warning. -/
theorem empty_rows_crash (ctx : RunCtx) (ts : Nat) (mp4 : Option String) :
    processDescriptor ctx ⟨ts, some [], mp4⟩ =
      .crash "IndexError: single positional indexer is out-of-bounds" := rfl

/-- C3 counterexample: a descriptor whose serial-range-filtered inner
join with the Event Index is empty (here: its only serial, 300, is
outside the range `[100, 200]`) does not warn-and-continue; the run
crashes on `.iloc[0]` of the empty join. -/
theorem empty_join_counterexample :
    processDescriptor ⟨100, 200, [⟨100, 1000⟩], [⟨1000, 5⟩]⟩
        ⟨7, some [⟨300, 1, 1⟩], some "video.mp4"⟩ =
      .crash "IndexError: single positional indexer is out-of-bounds" := rfl

/-- C3 (amended): for every descriptor whose serial-range-filtered inner
join of descriptor rows with Event Index rows is empty, the Signal
Slicer is indeed never queried for it (the outcome is the same for every
signal table), but the run does not continue: reading `.iloc[0]` of the
empty join raises an uncaught IndexError that aborts the run. -/
theorem empty_join_crash (s e : Nat) (nev : List NevRow) (signal : List Sample)
    (ts : Nat) (r0 : CamRow) (rrest : List CamRow) (mp4 : Option String)
    (hempty :
      chunkSerialJoined nev (filterSerialRange s e (relativize r0 (r0 :: rrest))) = []) :
    processDescriptor ⟨s, e, nev, signal⟩ ⟨ts, some (r0 :: rrest), mp4⟩ =
      .crash "IndexError: single positional indexer is out-of-bounds" := by
  simp only [processDescriptor]
  rw [hempty]

/-- Witness for C3 (amended): a concrete descriptor whose only serial,
500, lies outside the reference range `[100, 200]`. -/
theorem empty_join_crash_witness :
    processDescriptor ⟨100, 200, [⟨150, 2000⟩], [⟨2000, 9⟩]⟩
        ⟨3, some [⟨500, 4, 4⟩], some "cam.mp4"⟩ =
      .crash "IndexError: single positional indexer is out-of-bounds" :=
  empty_join_crash 100 200 [⟨150, 2000⟩] [⟨2000, 9⟩] 3 ⟨500, 4, 4⟩ [] (some "cam.mp4")
    (by decide)

theorem filter_timestamp_eq_find (t : Nat) (joined : List JoinedRow)
    (h : (joined.map JoinedRow.TimeStamps).Nodup) :
    (joined.filter fun j => j.TimeStamps = t) =
      match joined.find? fun j => j.TimeStamps = t with
      | some j => [j]
      | none => [] := by
  induction joined with
  | nil => rfl
  | cons j rest ih =>
    simp only [List.map_cons, List.nodup_cons] at h
    by_cases hj : j.TimeStamps = t
    · have hrest : (rest.filter fun r => r.TimeStamps = t) = [] := by
        apply List.filter_eq_nil_iff.mpr
        intro r hr hrt
        exact h.1 (hj ▸ (of_decide_eq_true hrt) ▸ List.mem_map_of_mem JoinedRow.TimeStamps hr)
      simp [List.filter_cons, List.find?, hj, hrest]
    · simp [List.filter_cons, List.find?, hj, ih h.2]

/-- C4 (amended): when the joined rows' timestamps are pairwise
distinct, every sample of the Signal Slicer's queried slice appears
exactly once in the descriptor's final merged rows — the left merge is
exactly a map over the samples — carrying serial and frame metadata when
a joined row with an equal timestamp exists and null metadata fields
otherwise. (Without distinctness a sample fans out once per matching
joined row.) -/
theorem left_merge_one_row_per_sample (samples : List Sample) (joined : List JoinedRow)
    (h : (joined.map JoinedRow.TimeStamps).Nodup) :
    leftMerge samples joined = samples.map fun s =>
      match joined.find? fun j => j.TimeStamps = s.TimeStamp with
      | some j =>
        { TimeStamp := s.TimeStamp
          Amplitude := s.Amplitude
          meta := some
            { chunk_serial := j.chunk_serial
              frame_id := j.frame_id
              frame_ids_reconstructed := j.frame_ids_reconstructed
              frame_ids_relative := j.frame_ids_relative } }
      | none => { TimeStamp := s.TimeStamp, Amplitude := s.Amplitude, meta := none } := by
  induction samples with
  | nil => rfl
  | cons s ss ih =>
    simp only [leftMerge, List.flatMap_cons, List.map_cons] at ih ⊢
    rw [ih]
    rw [filter_timestamp_eq_find s.TimeStamp joined h]
    cases joined.find? fun j => j.TimeStamps = s.TimeStamp with
    | none => rfl
    | some j => rfl

/-- Witness for C4 (amended) at a concrete slice and joined table with
distinct timestamps: the sample at 999 has no matching joined row and
gets null metadata; 1000 and 1001 each match exactly one row. -/
theorem left_merge_one_row_per_sample_witness :
    leftMerge [⟨999, 4⟩, ⟨1000, 5⟩, ⟨1001, 6⟩]
        [⟨1000, 100, 1, 10, 1⟩, ⟨1001, 101, 2, 11, 2⟩] =
      ([⟨999, 4⟩, ⟨1000, 5⟩, ⟨1001, 6⟩] : List Sample).map fun s =>
        match ([⟨1000, 100, 1, 10, 1⟩, ⟨1001, 101, 2, 11, 2⟩] : List JoinedRow).find?
            fun j => j.TimeStamps = s.TimeStamp with
        | some j =>
          { TimeStamp := s.TimeStamp
            Amplitude := s.Amplitude
            meta := some
              { chunk_serial := j.chunk_serial
                frame_id := j.frame_id
                frame_ids_reconstructed := j.frame_ids_reconstructed
                frame_ids_relative := j.frame_ids_relative } }
        | none => { TimeStamp := s.TimeStamp, Amplitude := s.Amplitude, meta := none } :=
  left_merge_one_row_per_sample [⟨999, 4⟩, ⟨1000, 5⟩, ⟨1001, 6⟩]
    [⟨1000, 100, 1, 10, 1⟩, ⟨1001, 101, 2, 11, 2⟩] (by decide)

/-- C4 counterexample: with a duplicated chunk serial in the Event Index
(which the data model allows), the queried slice is the single sample at
timestamp 1000, yet that sample appears twice in the descriptor's final
merged rows — the left merge fans out, so "exactly once" fails. -/
theorem left_merge_fan_out_counterexample :
    sliceSignal [⟨1000, 7⟩] 1000 1000 = [⟨1000, 7⟩] ∧
    processDescriptor ⟨100, 100, [⟨100, 1000⟩, ⟨100, 1000⟩], [⟨1000, 7⟩]⟩
        ⟨1, some [⟨100, 1, 1⟩], some "video.mp4"⟩ =
      .ok [⟨⟨1000, 7, some ⟨100, 1, 1, 1⟩⟩, "video.mp4"⟩,
           ⟨⟨1000, 7, some ⟨100, 1, 1, 1⟩⟩, "video.mp4"⟩] :=
  ⟨rfl, rfl⟩

/-- The `frame_ids_relative` column values of a descriptor's row set
whose first row is `r0`. -/
def relVals (r0 : CamRow) (rows : List CamRow) : List Int :=
  (relativize r0 rows).map CamRowRel.frame_ids_relative

/-- C5 counterexample: a non-empty row set whose reconstructed frame
indices are not non-decreasing (first row 5, second row 3) yields
relative values `[1, -1]`, whose minimum is `-1`, not `1`. -/
theorem min_relative_counterexample :
    ¬ ((1 : Int) ∈ relVals ⟨100, 1, 5⟩ [⟨100, 1, 5⟩, ⟨101, 2, 3⟩] ∧
       ∀ v ∈ relVals ⟨100, 1, 5⟩ [⟨100, 1, 5⟩, ⟨101, 2, 3⟩], (1 : Int) ≤ v) := by
  decide

/-- C5 (amended): for a descriptor's non-empty row set whose first row
carries the minimal reconstructed frame index (in particular whenever
the reconstructed indices are non-decreasing), the minimum of the
computed `frame_ids_relative` values equals 1: the value 1 occurs and
bounds all values from below. Without that ordering premise the minimum
can be below 1, since the code anchors to the first row, not to the
minimal one. -/
theorem min_relative_eq_one (r0 : CamRow) (rest : List CamRow)
    (hmono : ∀ r ∈ r0 :: rest,
      r0.frame_ids_reconstructed ≤ r.frame_ids_reconstructed) :
    (1 : Int) ∈ relVals r0 (r0 :: rest) ∧
      ∀ v ∈ relVals r0 (r0 :: rest), (1 : Int) ≤ v := by
  constructor
  · have : r0.frame_ids_reconstructed - r0.frame_ids_reconstructed + 1 = (1 : Int) := by omega
    simp [relVals, relativize, this]
  · intro v hv
    simp only [relVals, relativize, List.map_map, List.mem_map, Function.comp] at hv
    obtain ⟨r, hr, rfl⟩ := hv
    have := hmono r hr
    omega

/-- Witness for C5 (amended) on a row set with non-decreasing
reconstructed indices 10, 11, 13: relative values `[1, 2, 4]`. -/
theorem min_relative_eq_one_witness :
    (1 : Int) ∈ relVals ⟨100, 1, 10⟩ [⟨100, 1, 10⟩, ⟨101, 2, 11⟩, ⟨102, 3, 13⟩] ∧
      ∀ v ∈ relVals ⟨100, 1, 10⟩ [⟨100, 1, 10⟩, ⟨101, 2, 11⟩, ⟨102, 3, 13⟩],
        (1 : Int) ≤ v :=
  min_relative_eq_one ⟨100, 1, 10⟩ [⟨101, 2, 11⟩, ⟨102, 3, 13⟩] (by decide)

/-- A concrete run context used for concrete evaluations: reference
serial range `[100, 200]`, Event Index rows at serials 100, 101, and two
signal samples. -/
def ctxW : RunCtx :=
  ⟨100, 200, [⟨100, 1000⟩, ⟨101, 1001⟩], [⟨1000, 5⟩, ⟨1001, 6⟩]⟩

/-- A descriptor view whose rows join successfully, backed by the video
file `a.mp4`. -/
def descWa : DescriptorData :=
  ⟨1, some [⟨100, 1, 10⟩, ⟨101, 2, 11⟩], some "a.mp4"⟩

/-- The same rows backed by the video file `b.mp4`. -/
def descWb : DescriptorData :=
  ⟨2, some [⟨100, 1, 10⟩, ⟨101, 2, 11⟩], some "b.mp4"⟩

/-- Media calls that fail on `a.mp4` subclips and succeed elsewhere. -/
def opsFailA : MediaOps :=
  ⟨fun _ f => if f = "a.mp4" then .error "ffmpeg failed" else .ok ("sub_" ++ f),
    fun _ _ => .ok ()⟩

/-- C6 counterexample: with media calls failing on camera identity
`cam1`'s file only, the run over `[cam1, cam2]` aborts with the failure;
`cam2` is never processed, although processed alone it succeeds. This
refutes "only that identity produces no output: the run continues". -/
theorem media_failure_counterexample :
    runAll ctxW opsFailA [⟨"cam1", [descWa]⟩, ⟨"cam2", [descWb]⟩] =
        .error "ffmpeg failed" ∧
      runAll ctxW opsFailA [⟨"cam2", [descWb]⟩] = .ok [("cam2", [], some "sub_b.mp4")] :=
  ⟨rfl, rfl⟩

/-- C6 (amended): a failing media-assembly call for one camera identity
is an uncaught exception that aborts the entire run: no subsequent
camera identity is processed (there is no per-identity handler around
the outer loop). -/
theorem media_failure_aborts_run (ctx : RunCtx) (ops : MediaOps) (i : IdentityInput)
    (is : List IdentityInput) (e : String) (h : runIdentity ctx ops i = .error e) :
    runAll ctx ops (i :: is) = .error e := by
  simp [runAll, h]

/-- Witness for C6 (amended): the failing `cam1` identity aborts the run
over `[cam1, cam2]`. -/
theorem media_failure_aborts_run_witness :
    runAll ctxW opsFailA [⟨"cam1", [descWa]⟩, ⟨"cam2", [descWb]⟩] =
      .error "ffmpeg failed" :=
  media_failure_aborts_run ctxW opsFailA ⟨"cam1", [descWa]⟩ [⟨"cam2", [descWb]⟩]
    "ffmpeg failed" rfl

theorem mem_uniqueAux_not_seen : ∀ (l seen : List String) (x : String),
    x ∈ uniqueAux seen l → x ∉ seen
  | [], _, _, hx => absurd hx (List.not_mem_nil _)
  | y :: ys, seen, x, hx => by
    by_cases hy : y ∈ seen
    · exact mem_uniqueAux_not_seen ys seen x (by simpa [uniqueAux, hy] using hx)
    · rcases (by simpa [uniqueAux, hy] using hx : x = y ∨ x ∈ uniqueAux (y :: seen) ys) with
        rfl | hx'
      · exact hy
      · exact fun hc =>
          mem_uniqueAux_not_seen ys (y :: seen) x hx' (List.mem_cons_of_mem y hc)

theorem uniqueAux_nodup : ∀ (l seen : List String), (uniqueAux seen l).Nodup
  | [], _ => List.nodup_nil
  | y :: ys, seen => by
    by_cases hy : y ∈ seen
    · simpa [uniqueAux, hy] using uniqueAux_nodup ys seen
    · simp only [uniqueAux, if_neg hy, List.nodup_cons]
      exact ⟨fun hc => mem_uniqueAux_not_seen ys (y :: seen) y hc (List.mem_cons_self y seen),
        uniqueAux_nodup ys (y :: seen)⟩

theorem uniqueAux_congr : ∀ (l s1 s2 : List String),
    (∀ x, x ∈ s1 ↔ x ∈ s2) → uniqueAux s1 l = uniqueAux s2 l
  | [], _, _, _ => rfl
  | y :: ys, s1, s2, h => by
    by_cases hy : y ∈ s1
    · simp [uniqueAux, hy, (h y).mp hy, uniqueAux_congr ys s1 s2 h]
    · have hy2 : y ∉ s2 := fun hc => hy ((h y).mpr hc)
      simp only [uniqueAux, if_neg hy, if_neg hy2]
      exact congrArg (y :: ·)
        (uniqueAux_congr ys (y :: s1) (y :: s2) fun x => by simp [h x])

theorem foldl_firstAppearance : ∀ (l acc : List String),
    List.foldl (fun a x => if x ∈ a then a else a ++ [x]) acc l = acc ++ uniqueAux acc l
  | [], acc => by simp [uniqueAux]
  | y :: ys, acc => by
    by_cases hy : y ∈ acc
    · simp [uniqueAux, hy, foldl_firstAppearance ys acc]
    · simp only [List.foldl_cons, if_neg hy, uniqueAux, foldl_firstAppearance ys (acc ++ [y])]
      rw [uniqueAux_congr ys (acc ++ [y]) (y :: acc) fun x => by simp [or_comm]]
      simp

theorem makeSubclips_ok (ops : MediaOps) (mk : String → String) (rows : List OutRow)
    (hok : ∀ dfSub f, ops.makeSubclip dfSub f = .ok (mk f)) :
    ∀ fs : List String, makeSubclips ops rows fs = .ok (fs.map mk)
  | [] => rfl
  | f :: fs => by simp [makeSubclips, hok, makeSubclips_ok ops mk rows hok fs]

/-- C7: for a camera identity with a non-empty joined row sequence and
media calls that succeed (producing `mk f` for source file `f`), exactly
one subclip is produced per distinct source video file, in first-
appearance order within the concatenated rows (the distinct-file list is
duplicate-free and equals the left-to-right first-appearance
deduplication); with exactly one distinct file the single subclip is the
final output directly, and with two or more the final output is the
concatenation of the subclips in that same order. -/
theorem subclip_per_file_first_appearance (ops : MediaOps) (mk : String → String)
    (rows : List OutRow) (stitchedPath : String) (hrows : rows ≠ [])
    (hok : ∀ dfSub f, ops.makeSubclip dfSub f = .ok (mk f)) :
    (uniqueFiles rows).Nodup ∧
      uniqueFiles rows = specFirstAppearance (rows.map OutRow.mp4_file) ∧
      makeSubclips ops rows (uniqueFiles rows) = .ok ((uniqueFiles rows).map mk) ∧
      (∀ f, uniqueFiles rows = [f] →
        assembleIdentity ops rows stitchedPath = .ok (mk f)) ∧
      (2 ≤ (uniqueFiles rows).length →
        assembleIdentity ops rows stitchedPath =
          match ops.concatMp4s ((uniqueFiles rows).map mk) stitchedPath with
          | .error e => .error e
          | .ok _ => .ok stitchedPath) := by
  refine ⟨uniqueAux_nodup _ _, ?_, makeSubclips_ok ops mk rows hok _, ?_, ?_⟩
  · rw [uniqueFiles, specFirstAppearance, foldl_firstAppearance, List.nil_append]
  · intro f hf
    rw [assembleIdentity, makeSubclips_ok ops mk rows hok _, hf]
    rfl
  · intro hlen
    rw [assembleIdentity, makeSubclips_ok ops mk rows hok _]
    rcases huf : uniqueFiles rows with _ | ⟨f1, _ | ⟨f2, ft⟩⟩
    · rfl
    · rw [huf] at hlen; simp at hlen
    · rfl

/-- Media calls that always succeed, naming each subclip after its
source file. -/
def opsOk : MediaOps :=
  ⟨fun _ f => .ok ("sub_" ++ f), fun _ _ => .ok ()⟩

/-- Witness for C7 on a row sequence over files `a.mp4`, `b.mp4`,
`a.mp4`: two subclips in first-appearance order `[a, b]`, stitched. -/
theorem subclip_per_file_first_appearance_witness :
    (uniqueFiles [⟨⟨1000, 5, none⟩, "a.mp4"⟩, ⟨⟨1001, 6, none⟩, "b.mp4"⟩,
        ⟨⟨1002, 7, none⟩, "a.mp4"⟩]).Nodup ∧
      uniqueFiles [⟨⟨1000, 5, none⟩, "a.mp4"⟩, ⟨⟨1001, 6, none⟩, "b.mp4"⟩,
          ⟨⟨1002, 7, none⟩, "a.mp4"⟩] =
        specFirstAppearance (([⟨⟨1000, 5, none⟩, "a.mp4"⟩, ⟨⟨1001, 6, none⟩, "b.mp4"⟩,
          ⟨⟨1002, 7, none⟩, "a.mp4"⟩] : List OutRow).map OutRow.mp4_file) ∧
      makeSubclips opsOk [⟨⟨1000, 5, none⟩, "a.mp4"⟩, ⟨⟨1001, 6, none⟩, "b.mp4"⟩,
          ⟨⟨1002, 7, none⟩, "a.mp4"⟩]
          (uniqueFiles [⟨⟨1000, 5, none⟩, "a.mp4"⟩, ⟨⟨1001, 6, none⟩, "b.mp4"⟩,
            ⟨⟨1002, 7, none⟩, "a.mp4"⟩]) =
        .ok ((uniqueFiles [⟨⟨1000, 5, none⟩, "a.mp4"⟩, ⟨⟨1001, 6, none⟩, "b.mp4"⟩,
          ⟨⟨1002, 7, none⟩, "a.mp4"⟩]).map (fun f => "sub_" ++ f)) ∧
      (∀ f, uniqueFiles [⟨⟨1000, 5, none⟩, "a.mp4"⟩, ⟨⟨1001, 6, none⟩, "b.mp4"⟩,
            ⟨⟨1002, 7, none⟩, "a.mp4"⟩] = [f] →
        assembleIdentity opsOk [⟨⟨1000, 5, none⟩, "a.mp4"⟩, ⟨⟨1001, 6, none⟩, "b.mp4"⟩,
            ⟨⟨1002, 7, none⟩, "a.mp4"⟩] "stitched.mp4" = .ok ("sub_" ++ f)) ∧
      (2 ≤ (uniqueFiles [⟨⟨1000, 5, none⟩, "a.mp4"⟩, ⟨⟨1001, 6, none⟩, "b.mp4"⟩,
            ⟨⟨1002, 7, none⟩, "a.mp4"⟩]).length →
        assembleIdentity opsOk [⟨⟨1000, 5, none⟩, "a.mp4"⟩, ⟨⟨1001, 6, none⟩, "b.mp4"⟩,
            ⟨⟨1002, 7, none⟩, "a.mp4"⟩] "stitched.mp4" =
          match opsOk.concatMp4s ((uniqueFiles [⟨⟨1000, 5, none⟩, "a.mp4"⟩,
              ⟨⟨1001, 6, none⟩, "b.mp4"⟩, ⟨⟨1002, 7, none⟩, "a.mp4"⟩]).map
                (fun f => "sub_" ++ f)) "stitched.mp4" with
          | .error e => .error e
          | .ok _ => .ok "stitched.mp4") :=
  subclip_per_file_first_appearance opsOk (fun f => "sub_" ++ f)
    [⟨⟨1000, 5, none⟩, "a.mp4"⟩, ⟨⟨1001, 6, none⟩, "b.mp4"⟩, ⟨⟨1002, 7, none⟩, "a.mp4"⟩]
    "stitched.mp4" (by decide) (fun _ _ => rfl)

/-- C8: when no descriptor yields usable merged data for a camera
identity (`all_merged_list` stays empty), that identity produces no
final output, the "No valid merged data" warning is recorded in its log,
and the run proceeds to the remaining camera identities exactly as if
the identity loop had continued. -/
theorem no_merged_data_skips_identity (ctx : RunCtx) (ops : MediaOps)
    (i : IdentityInput) (is : List IdentityInput) (ws : List String)
    (h : collectMerged ctx i.descs = .ok (ws, [])) :
    runAll ctx ops (i :: is) =
      match runAll ctx ops is with
      | .error e => .error e
      | .ok rs =>
        .ok ((i.serial, ws ++ ["No valid merged data for " ++ i.serial], none) :: rs) := by
  simp [runAll, runIdentity, h]

/-- Witness for C8: `cam0`'s only descriptor group has no resolvable
JSON sidecar, so it is skipped and `cam0` has no merged data; the run
records the warning, emits no output for `cam0`, and still processes
`cam2`. -/
theorem no_merged_data_skips_identity_witness :
    runAll ctxW opsOk [⟨"cam0", [⟨9, none, none⟩]⟩, ⟨"cam2", [descWb]⟩] =
      match runAll ctxW opsOk [⟨"cam2", [descWb]⟩] with
      | .error e => .error e
      | .ok rs =>
        .ok (("cam0", ["No JSON file found in group"] ++ ["No valid merged data for " ++ "cam0"],
          none) :: rs) :=
  no_merged_data_skips_identity ctxW opsOk ⟨"cam0", [⟨9, none, none⟩]⟩ [⟨"cam2", [descWb]⟩]
    ["No JSON file found in group"] rfl

/-- C9: when the persisted timestamps file exists and loads to a
non-empty (truthy) list, that cached list is used verbatim and the
overlap scan is never executed: the selection is the same for every
reference serial range and every descriptor sequence. -/
theorem cached_timestamps_bypass_scan (ts : List Nat) (h : ts ≠ [])
    (s1 e1 s2 e2 : Nat) (ds1 ds2 : List Descriptor) :
    selectTimestamps (some ts) s1 e1 ds1 = ts ∧
      selectTimestamps (some ts) s1 e1 ds1 = selectTimestamps (some ts) s2 e2 ds2 := by
  match ts with
  | [] => exact absurd rfl h
  | t :: ts' => exact ⟨rfl, rfl⟩

/-- Witness for C9: the cached list `[4, 2]` is returned verbatim under
two different reference ranges and descriptor sequences. -/
theorem cached_timestamps_bypass_scan_witness :
    selectTimestamps (some [4, 2]) 100 200 [⟨1, some (50, 150)⟩] = [4, 2] ∧
      selectTimestamps (some [4, 2]) 100 200 [⟨1, some (50, 150)⟩] =
        selectTimestamps (some [4, 2]) 0 7 [] :=
  cached_timestamps_bypass_scan [4, 2] (by decide) 100 200 0 7 [⟨1, some (50, 150)⟩] []

theorem sortTimestamps_perm_eq (l1 l2 : List Nat) (h : l1.Perm l2) :
    sortTimestamps l1 = sortTimestamps l2 :=
  List.eq_of_perm_of_sorted
    ((List.perm_insertionSort _ l1).trans (h.trans (List.perm_insertionSort _ l2).symm))
    (List.sorted_insertionSort _ l1) (List.sorted_insertionSort _ l2)

/-- C10: each camera identity processes the selected descriptor groups
in ascending sorted order of their timestamps, not in stored order: any
permutation of the selected timestamps list yields the identical
per-identity result (merged rows, log, and output). -/
theorem pipeline_invariant_under_selection_order (ctx : RunCtx) (ops : MediaOps)
    (camFiles : Nat → DescriptorData) (serial : String) (l1 l2 : List Nat)
    (h : l1.Perm l2) :
    identityPipeline ctx ops camFiles serial l1 =
      identityPipeline ctx ops camFiles serial l2 := by
  unfold identityPipeline
  rw [sortTimestamps_perm_eq l1 l2 h]

/-- A concrete timestamp-indexed table of descriptor views: group 1 is
`descWa`, group 2 is `descWb`, anything else unresolvable. -/
def camFilesW : Nat → DescriptorData :=
  fun t => if t = 1 then descWa else if t = 2 then descWb else ⟨t, none, none⟩

/-- Witness for C10: the selected lists `[2, 1]` and `[1, 2]` are
permutations of each other and produce the identical `cam1` result. -/
theorem pipeline_invariant_under_selection_order_witness :
    identityPipeline ctxW opsOk camFilesW "cam1" [2, 1] =
      identityPipeline ctxW opsOk camFilesW "cam1" [1, 2] :=
  pipeline_invariant_under_selection_order ctxW opsOk camFilesW "cam1" [2, 1] [1, 2]
    (List.Perm.swap 1 2 [])
